import Mathlib

/-!
Verification of the osipi tissue-model module (`src/osipi/_tissue.py`).

The two public functions `tofts` and `extended_tofts` are embedded over `ℚ`
(the Python code computes with floating-point numbers; the claims under study
are structural, so exact rational arithmetic is the faithful idealisation).
The module's external numeric collaborators are not part of the source under
verification and are passed as explicit function parameters:

* `rexp` — the pointwise exponential `np.exp` (only ever applied pointwise to
  build the impulse response);
* `quad` — `scipy.interpolate.interp1d(..., kind="quadratic",
  bounds_error=False, fill_value=0)` as a vectorised map
  `(knots, values, queries) ↦ interpolated values`;
* `ec` — `exp_conv` from the (external) `osipi._convolution` module, as
  `(Tc, t, ca) ↦ convolved series`.

Linear interpolation (used by the arterial-delay shift) is simple and fully
determined, so it is embedded concretely.
-/

namespace Osipi

/-- `np.diff`: consecutive differences `t[i+1] - t[i]`. -/
def diff : List ℚ → List ℚ
  | [] => []
  | [_] => []
  | a :: b :: rest => (b - a) :: diff (b :: rest)

/-- Default relative tolerance of `np.allclose`. -/
def rtol : ℚ := 1 / 100000

/-- Default absolute tolerance of `np.allclose`. -/
def atol : ℚ := 1 / 100000000

/-- `np.isclose(a, b)` with default tolerances: `|a - b| <= atol + rtol*|b|`. -/
def isclose (a b : ℚ) : Bool := |a - b| ≤ atol + rtol * |b|

/-- `np.allclose(xs, b)` for a scalar `b` broadcast over the array `xs`. -/
def allclose (xs : List ℚ) (b : ℚ) : Bool := xs.all (fun x => isclose x b)

/-- The uniform-spacing test of the source:
`np.allclose(np.diff(t), np.diff(t)[0])`. -/
def gridUniform (t : List ℚ) : Bool := allclose (diff t) ((diff t).headD 0)

/-- `tofts` warns (lines 77–81 of `_tissue.py`) exactly when the uniformity
test fails: `if not np.allclose(np.diff(t), np.diff(t)[0]): warnings.warn(…)`. -/
def toftsWarns (t : List ℚ) : Bool := ! gridUniform t

/-- `extended_tofts` warns (lines 242–246 of `_tissue.py`) exactly when the
uniformity test fails, same condition as in `tofts`. -/
def extendedToftsWarns (t : List ℚ) : Bool := ! gridUniform t

/-- Scalar times array, elementwise (numpy broadcast `c * xs`). -/
def smul (c : ℚ) (xs : List ℚ) : List ℚ := xs.map (fun x => c * x)

/-- Elementwise array addition (numpy `xs + ys`, equal lengths in all uses). -/
def addL (xs ys : List ℚ) : List ℚ := List.zipWith (fun a b => a + b) xs ys

/-- Entry `k` of the full discrete convolution: `(a * v)[k] = Σ_j a[j] v[k-j]`
with out-of-range indices contributing `0`. -/
def convEntry (a v : List ℚ) (k : ℕ) : ℚ :=
  (List.range (k + 1)).foldl (fun s j => s + a.getD j 0 * v.getD (k - j) 0) 0

/-- `np.convolve(a, v)` (mode "full"): length `len(a) + len(v) - 1`. -/
def convolve (a v : List ℚ) : List ℚ :=
  (List.range (a.length + v.length - 1)).map (convEntry a v)

/-- Piecewise-linear interpolation through the knot list, `0` outside the
knot range (the `fill_value=0, bounds_error=False` policy of `interp1d`). -/
def interpSeg : List (ℚ × ℚ) → ℚ → ℚ
  | [], _ => 0
  | [(t0, y0)], x => if x = t0 then y0 else 0
  | (t0, y0) :: (t1, y1) :: rest, x =>
      if x < t0 then 0
      else if x ≤ t1 then y0 + (y1 - y0) * (x - t0) / (t1 - t0)
      else interpSeg ((t1, y1) :: rest) x

/-- `interp1d(ts, ys, kind="linear", bounds_error=False, fill_value=0)`
evaluated at one point. -/
def interpLin (ts ys : List ℚ) (x : ℚ) : ℚ := interpSeg (ts.zip ys) x

/-- The arterial-delay shift of the source: `ca = (t > Ta) * f(t - Ta)` with
`f` the linear interpolant of `ca` over `t` (zero fill out of bounds). -/
def delayShift (t ca : List ℚ) (Ta : ℚ) : List ℚ :=
  t.map (fun ti => (if Ta < ti then (1 : ℚ) else 0) * interpLin t ca (ti - Ta))

/-- Impulse response of the source (`Ktrans` already in 1/sec):
`kep = Ktrans/ve; imp = Ktrans * np.exp(-1 * kep * t)`. -/
def impResp (rexp : ℚ → ℚ) (Ktrans ve : ℚ) (t : List ℚ) : List ℚ :=
  let kep := Ktrans / ve
  t.map (fun ti => Ktrans * rexp (-1 * kep * ti))

/-- `np.min(np.diff(t))`, the smallest consecutive spacing. -/
def mindiff (t : List ℚ) : ℚ :=
  match diff t with
  | [] => 0
  | d :: ds => ds.foldl min d

/-- Python `int(...)` applied to the (nonnegative, in all reachable uses)
point count: truncation, i.e. the floor, clamped into `ℕ`. -/
def npint (x : ℚ) : ℕ := (⌊x⌋).toNat

/-- `np.linspace(a, b, num)`: `num` evenly spaced points from `a` to `b`
inclusive. For `num = 1` the `ℚ`-division by `0` yields `0`, giving `[a]`,
matching numpy. -/
def linspace (a b : ℚ) (num : ℕ) : List ℚ :=
  (List.range num).map (fun i : ℕ => a + (b - a) * (i : ℚ) / ((num : ℚ) - 1))

/-- Point count of the resampled grid: `int((t[-1] - t[0]) / dt)` with
`dt = np.min(np.diff(t))`. -/
def resampleCount (t : List ℚ) : ℕ :=
  npint ((t.getLastD 0 - t.headD 0) / mindiff t)

/-- The resampled grid of the non-uniform branch:
`dt = np.min(np.diff(t)); t_resampled = np.linspace(t[0], t[-1], int((t[-1] - t[0]) / dt))`. -/
def resampledGrid (t : List ℚ) : List ℚ :=
  linspace (t.headD 0) (t.getLastD 0) (resampleCount t)

/-- `tofts(t, ca, Ktrans, ve, Ta, discretization_method)` of
`_tissue.py` lines 77–166 (defaults in Python: `Ta = 30`,
`discretization_method = "conv"`), with the external numeric primitives
`rexp`, `quad`, `ec` as parameters. -/
def tofts (rexp : ℚ → ℚ) (quad : List ℚ → List ℚ → List ℚ → List ℚ)
    (ec : ℚ → List ℚ → List ℚ → List ℚ)
    (t ca : List ℚ) (Ktrans ve Ta : ℚ) (discretization_method : String) : List ℚ :=
  if Ktrans ≤ 0 ∨ ve ≤ 0 then
    smul 0 ca
  else
    let Ktrans := Ktrans / 60
    if discretization_method = "exp" then
      let ca := if Ta ≠ 0 then delayShift t ca Ta else ca
      let Tc := ve / Ktrans
      smul ve (ec Tc t ca)
    else
      let imp := impResp rexp Ktrans ve t
      let ca := if Ta ≠ 0 then delayShift t ca Ta else ca
      if gridUniform t then
        smul (t.getD 1 0) ((convolve ca imp).take t.length)
      else
        let t_resampled := resampledGrid t
        let ca_resampled := quad t ca t_resampled
        let imp_resampled := quad t imp t_resampled
        let ct_resampled :=
          smul (t_resampled.getD 1 0)
            ((convolve ca_resampled imp_resampled).take t_resampled.length)
        quad t_resampled ct_resampled t

/-- `extended_tofts(t, ca, Ktrans, ve, vp, Ta, discretization_method)` of
`_tissue.py` lines 242–335, with the external numeric primitives as
parameters. -/
def extended_tofts (rexp : ℚ → ℚ) (quad : List ℚ → List ℚ → List ℚ → List ℚ)
    (ec : ℚ → List ℚ → List ℚ → List ℚ)
    (t ca : List ℚ) (Ktrans ve vp Ta : ℚ) (discretization_method : String) : List ℚ :=
  if Ktrans ≤ 0 ∨ ve ≤ 0 then
    smul vp ca
  else
    let Ktrans := Ktrans / 60
    if discretization_method = "exp" then
      let ca := if Ta ≠ 0 then delayShift t ca Ta else ca
      let Tc := ve / Ktrans
      addL (smul vp ca) (smul ve (ec Tc t ca))
    else
      let imp := impResp rexp Ktrans ve t
      let ca := if Ta ≠ 0 then delayShift t ca Ta else ca
      if gridUniform t then
        addL (smul (t.getD 1 0) ((convolve ca imp).take t.length)) (smul vp ca)
      else
        let t_resampled := resampledGrid t
        let ca_resampled := quad t ca t_resampled
        let imp_resampled := quad t imp t_resampled
        let ct_resampled :=
          addL
            (smul (t_resampled.getD 1 0)
              ((convolve ca_resampled imp_resampled).take t_resampled.length))
            (smul vp ca_resampled)
        quad t_resampled ct_resampled t

/-- `tofts` with the two division sites that the guard protects
(`kep = Ktrans/ve` in the "conv" branch, `Tc = ve/Ktrans` in the "exp"
branch) instrumented: the computation aborts with `none` whenever a divisor
there is zero, and otherwise proceeds exactly as `tofts`. -/
def toftsChecked (rexp : ℚ → ℚ) (quad : List ℚ → List ℚ → List ℚ → List ℚ)
    (ec : ℚ → List ℚ → List ℚ → List ℚ)
    (t ca : List ℚ) (Ktrans ve Ta : ℚ) (discretization_method : String) :
    Option (List ℚ) :=
  if Ktrans ≤ 0 ∨ ve ≤ 0 then
    some (smul 0 ca)
  else
    let Ktrans := Ktrans / 60
    if discretization_method = "exp" then
      let ca := if Ta ≠ 0 then delayShift t ca Ta else ca
      if Ktrans = 0 then none else
      let Tc := ve / Ktrans
      some (smul ve (ec Tc t ca))
    else
      if ve = 0 then none else
      let imp := impResp rexp Ktrans ve t
      let ca := if Ta ≠ 0 then delayShift t ca Ta else ca
      if gridUniform t then
        some (smul (t.getD 1 0) ((convolve ca imp).take t.length))
      else
        let t_resampled := resampledGrid t
        let ca_resampled := quad t ca t_resampled
        let imp_resampled := quad t imp t_resampled
        let ct_resampled :=
          smul (t_resampled.getD 1 0)
            ((convolve ca_resampled imp_resampled).take t_resampled.length)
        some (quad t_resampled ct_resampled t)

/-- `extended_tofts` with the two guarded division sites instrumented the
same way as in `toftsChecked`. -/
def extendedToftsChecked (rexp : ℚ → ℚ) (quad : List ℚ → List ℚ → List ℚ → List ℚ)
    (ec : ℚ → List ℚ → List ℚ → List ℚ)
    (t ca : List ℚ) (Ktrans ve vp Ta : ℚ) (discretization_method : String) :
    Option (List ℚ) :=
  if Ktrans ≤ 0 ∨ ve ≤ 0 then
    some (smul vp ca)
  else
    let Ktrans := Ktrans / 60
    if discretization_method = "exp" then
      let ca := if Ta ≠ 0 then delayShift t ca Ta else ca
      if Ktrans = 0 then none else
      let Tc := ve / Ktrans
      some (addL (smul vp ca) (smul ve (ec Tc t ca)))
    else
      if ve = 0 then none else
      let imp := impResp rexp Ktrans ve t
      let ca := if Ta ≠ 0 then delayShift t ca Ta else ca
      if gridUniform t then
        some (addL (smul (t.getD 1 0) ((convolve ca imp).take t.length)) (smul vp ca))
      else
        let t_resampled := resampledGrid t
        let ca_resampled := quad t ca t_resampled
        let imp_resampled := quad t imp t_resampled
        let ct_resampled :=
          addL
            (smul (t_resampled.getD 1 0)
              ((convolve ca_resampled imp_resampled).take t_resampled.length))
            (smul vp ca_resampled)
        some (quad t_resampled ct_resampled t)

/-- A concrete stand-in for `np.exp` used only to instantiate witnesses. -/
def rexp1 : ℚ → ℚ := fun _ => 1

/-- A concrete length-preserving stand-in for the quadratic interpolation
primitive, used only to instantiate witnesses. -/
def quad0 : List ℚ → List ℚ → List ℚ → List ℚ := fun _ _ q => q.map (fun _ => 0)

/-- A concrete stand-in for `exp_conv`, returning a series aligned to the
time grid, used only to instantiate witnesses. -/
def ec0 : ℚ → List ℚ → List ℚ → List ℚ := fun _ t _ => t.map (fun _ => 0)

/-! ### Helper lemmas -/

lemma length_smul (c : ℚ) (xs : List ℚ) : (smul c xs).length = xs.length := by
  simp [smul]

lemma length_addL (xs ys : List ℚ) : (addL xs ys).length = min xs.length ys.length := by
  simp [addL]

lemma length_convolve (a v : List ℚ) :
    (convolve a v).length = a.length + v.length - 1 := by
  simp [convolve]

lemma length_delayShift (t ca : List ℚ) (Ta : ℚ) :
    (delayShift t ca Ta).length = t.length := by
  simp [delayShift]

lemma length_impResp (rexp : ℚ → ℚ) (Ktrans ve : ℚ) (t : List ℚ) :
    (impResp rexp Ktrans ve t).length = t.length := by
  simp [impResp]

lemma length_caShift (t ca : List ℚ) (Ta : ℚ) (hca : ca.length = t.length) :
    (if Ta ≠ 0 then delayShift t ca Ta else ca).length = t.length := by
  split_ifs <;> simp [length_delayShift, hca]

lemma not_degenerate (Ktrans ve : ℚ) (hK : 0 < Ktrans) (hv : 0 < ve) :
    ¬(Ktrans ≤ 0 ∨ ve ≤ 0) := by
  push_neg
  exact ⟨hK, hv⟩

lemma addL_smul_zero_left (xs ys : List ℚ) (h : ys.length ≤ xs.length) :
    addL (smul 0 xs) ys = ys := by
  induction ys generalizing xs with
  | nil => simp [addL]
  | cons y ys ih =>
    cases xs with
    | nil => simp at h
    | cons x xs =>
      have := ih xs (by simpa using h)
      simpa [addL, smul] using this

lemma addL_smul_zero_right (xs ys : List ℚ) (h : xs.length ≤ ys.length) :
    addL xs (smul 0 ys) = xs := by
  induction xs generalizing ys with
  | nil => simp [addL]
  | cons x xs ih =>
    cases ys with
    | nil => simp at h
    | cons y ys =>
      have := ih ys (by simpa using h)
      simpa [addL, smul] using this

lemma tofts_length (rexp : ℚ → ℚ) (quad : List ℚ → List ℚ → List ℚ → List ℚ)
    (ec : ℚ → List ℚ → List ℚ → List ℚ) (t ca : List ℚ) (Ktrans ve Ta : ℚ) (m : String)
    (hca : ca.length = t.length)
    (hq : ∀ a b q, (quad a b q).length = q.length)
    (he : ∀ Tc tt cc, (ec Tc tt cc).length = tt.length) :
    (tofts rexp quad ec t ca Ktrans ve Ta m).length = t.length := by
  simp only [tofts]
  split_ifs <;>
    simp [length_smul, List.length_take, length_convolve, length_delayShift,
      length_impResp, hca, hq, he] <;>
    omega

lemma extended_tofts_length (rexp : ℚ → ℚ) (quad : List ℚ → List ℚ → List ℚ → List ℚ)
    (ec : ℚ → List ℚ → List ℚ → List ℚ) (t ca : List ℚ) (Ktrans ve vp Ta : ℚ) (m : String)
    (hca : ca.length = t.length)
    (hq : ∀ a b q, (quad a b q).length = q.length)
    (he : ∀ Tc tt cc, (ec Tc tt cc).length = tt.length) :
    (extended_tofts rexp quad ec t ca Ktrans ve vp Ta m).length = t.length := by
  simp only [extended_tofts]
  split_ifs <;>
    simp [length_smul, length_addL, List.length_take, length_convolve, length_delayShift,
      length_impResp, hca, hq, he] <;>
    omega

/-! ### Claim theorems -/

/-- C2: whenever `Ktrans <= 0` or `ve <= 0`, for every delay, method and grid
(of the documented shape, at least two samples), `tofts` returns the all-zero
series `0 * ca` and `extended_tofts` returns `vp * ca` elementwise; both
functions are total here, no error path exists. -/
theorem degenerate_params_give_degenerate_result (rexp : ℚ → ℚ)
    (quad : List ℚ → List ℚ → List ℚ → List ℚ) (ec : ℚ → List ℚ → List ℚ → List ℚ)
    (t ca : List ℚ) (Ktrans ve vp Ta : ℚ) (m : String)
    (ht : 2 ≤ t.length) (h : Ktrans ≤ 0 ∨ ve ≤ 0) :
    tofts rexp quad ec t ca Ktrans ve Ta m = smul 0 ca ∧
    (∀ x ∈ tofts rexp quad ec t ca Ktrans ve Ta m, x = 0) ∧
    extended_tofts rexp quad ec t ca Ktrans ve vp Ta m = smul vp ca := by
  refine ⟨?_, ?_, ?_⟩ <;> simp [tofts, extended_tofts, h, smul]

/-- C2 witness: concrete degenerate instance `Ktrans = 0`. -/
theorem degenerate_params_give_degenerate_result_witness :
    tofts rexp1 quad0 ec0 [0, 1] [1, 2] 0 (1/2) 30 "conv" = smul 0 [1, 2] ∧
    extended_tofts rexp1 quad0 ec0 [0, 1] [1, 2] 0 (1/2) (1/3) 30 "conv"
      = smul (1/3) [1, 2] := by
  have h := degenerate_params_give_degenerate_result rexp1 quad0 ec0 [0, 1] [1, 2]
    0 (1/2) (1/3) 30 "conv" (by decide) (Or.inl le_rfl)
  exact ⟨h.1, h.2.2⟩

/-- C10: any discretization method string other than `"exp"` (for example
`"exponential"` or `""`) silently takes the numerical-convolution path: the
result is identical to the one for `"conv"`, and no validation error exists
(the functions are total). -/
theorem unknown_method_defaults_to_conv (rexp : ℚ → ℚ)
    (quad : List ℚ → List ℚ → List ℚ → List ℚ) (ec : ℚ → List ℚ → List ℚ → List ℚ)
    (t ca : List ℚ) (Ktrans ve vp Ta : ℚ) (m : String) (hm : m ≠ "exp") :
    tofts rexp quad ec t ca Ktrans ve Ta m
      = tofts rexp quad ec t ca Ktrans ve Ta "conv" ∧
    extended_tofts rexp quad ec t ca Ktrans ve vp Ta m
      = extended_tofts rexp quad ec t ca Ktrans ve vp Ta "conv" := by
  constructor <;> simp [tofts, extended_tofts, hm]

/-- C10 witness: the unrecognized method `"exponential"` behaves as `"conv"`. -/
theorem unknown_method_defaults_to_conv_witness :
    tofts rexp1 quad0 ec0 [0, 1, 2] [1, 1, 1] 60 1 0 "exponential"
      = tofts rexp1 quad0 ec0 [0, 1, 2] [1, 1, 1] 60 1 0 "conv" :=
  (unknown_method_defaults_to_conv rexp1 quad0 ec0 [0, 1, 2] [1, 1, 1]
    60 1 0 0 "exponential" (by decide)).1

/-- C1 (code bug): on the uniform grid `t = [1, 2, 3]` (step `dt = 1`, not
starting at `0`), with `ca = [1, 1, 1]`, `Ktrans = 60` 1/min, `ve = 1`,
`Ta = 0`, method `"conv"`, the code scales the truncated convolution by
`t[1] = 2`, not by `dt = t[1] - t[0] = 1` as the claim states; the claimed
value is half the computed one, and `extended_tofts` inherits the same
scaling. -/
theorem tofts_conv_scale_uses_t1_not_dt :
    tofts rexp1 quad0 ec0 [1, 2, 3] [1, 1, 1] 60 1 0 "conv"
      = smul 2 ((convolve [1, 1, 1] (impResp rexp1 (60 / 60) 1 [1, 2, 3])).take 3) ∧
    tofts rexp1 quad0 ec0 [1, 2, 3] [1, 1, 1] 60 1 0 "conv"
      ≠ smul (2 - 1) ((convolve [1, 1, 1] (impResp rexp1 (60 / 60) 1 [1, 2, 3])).take 3) ∧
    extended_tofts rexp1 quad0 ec0 [1, 2, 3] [1, 1, 1] 60 1 1 0 "conv"
      ≠ addL (smul (2 - 1) ((convolve [1, 1, 1] (impResp rexp1 (60 / 60) 1 [1, 2, 3])).take 3))
          (smul 1 [1, 1, 1]) := by
  have hs : (("conv" = "exp") = False) := by decide
  refine ⟨?_, ?_, ?_⟩ <;>
    norm_num [tofts, extended_tofts, gridUniform, allclose, isclose, diff, atol, rtol,
      impResp, rexp1, delayShift, smul, convolve, convEntry, List.range_succ, addL, hs]

/-- C5 counterexample: for the non-uniform grid `t = [0, 1, 3]` the minimum
spacing is `1` but the resampled grid built by the code is `[0, 3/2, 3]`,
whose step is `3/2`, not `dt_min = 1`. -/
theorem resampled_step_ne_mindiff :
    gridUniform [(0 : ℚ), 1, 3] = false ∧
    mindiff [(0 : ℚ), 1, 3] = 1 ∧
    resampledGrid [(0 : ℚ), 1, 3] = [0, 3/2, 3] ∧
    (diff (resampledGrid [(0 : ℚ), 1, 3])).headD 0 ≠ mindiff [(0 : ℚ), 1, 3] := by
  have hI : Int.toNat 3 = 3 := rfl
  refine ⟨?_, ?_, ?_, ?_⟩ <;>
    norm_num [gridUniform, allclose, isclose, diff, atol, rtol, mindiff, resampledGrid,
      resampleCount, linspace, npint, hI, List.range_succ]

/-- C3: for non-degenerate parameters and method `"exp"`, both models first
shift `ca` by the arterial delay when `Ta ≠ 0`, then use
`Tc = ve / (Ktrans/60)`; `tofts` returns `ve * exp_conv(Tc, t, ca')` and
`extended_tofts` returns `vp * ca' + ve * exp_conv(Tc, t, ca')`, the plasma
term multiplying the delay-shifted series outside the convolution call. -/
theorem exp_method_structure (rexp : ℚ → ℚ)
    (quad : List ℚ → List ℚ → List ℚ → List ℚ) (ec : ℚ → List ℚ → List ℚ → List ℚ)
    (t ca : List ℚ) (Ktrans ve vp Ta : ℚ) (hK : 0 < Ktrans) (hv : 0 < ve) :
    tofts rexp quad ec t ca Ktrans ve Ta "exp"
      = smul ve (ec (ve / (Ktrans / 60)) t (if Ta ≠ 0 then delayShift t ca Ta else ca)) ∧
    extended_tofts rexp quad ec t ca Ktrans ve vp Ta "exp"
      = addL (smul vp (if Ta ≠ 0 then delayShift t ca Ta else ca))
          (smul ve (ec (ve / (Ktrans / 60)) t (if Ta ≠ 0 then delayShift t ca Ta else ca))) := by
  have hg := not_degenerate Ktrans ve hK hv
  constructor <;> simp [tofts, extended_tofts, hg]

/-- C3 witness: concrete instance with `Ta = 5 ≠ 0`. -/
theorem exp_method_structure_witness :
    tofts rexp1 quad0 ec0 [0, 1] [1, 2] 60 1 5 "exp"
      = smul 1 (ec0 (1 / (60 / 60)) [0, 1]
          (if (5 : ℚ) ≠ 0 then delayShift [0, 1] [1, 2] 5 else [1, 2])) :=
  (exp_method_structure rexp1 quad0 ec0 [0, 1] [1, 2] 60 1 0 5
    (by norm_num) (by norm_num)).1

/-- C4: with `Ta ≠ 0` admissible throughout, the delay-shifted series
`(t > Ta) * L(t - Ta)` has the length of `ca`, vanishes at every sample with
`t i ≤ Ta`, and both models under both methods compute exactly as if `ca`
were replaced by that series (unchanged when `Ta = 0`) with the delay then
set to zero. -/
theorem delay_shift_spec (rexp : ℚ → ℚ)
    (quad : List ℚ → List ℚ → List ℚ → List ℚ) (ec : ℚ → List ℚ → List ℚ → List ℚ)
    (t ca : List ℚ) (Ktrans ve vp Ta : ℚ)
    (hca : ca.length = t.length) (hK : 0 < Ktrans) (hv : 0 < ve) :
    (delayShift t ca Ta).length = ca.length ∧
    (∀ i, i < t.length → t.getD i 0 ≤ Ta → (delayShift t ca Ta).getD i 1 = 0) ∧
    (∀ m, tofts rexp quad ec t ca Ktrans ve Ta m
        = tofts rexp quad ec t (if Ta ≠ 0 then delayShift t ca Ta else ca) Ktrans ve 0 m) ∧
    (∀ m, extended_tofts rexp quad ec t ca Ktrans ve vp Ta m
        = extended_tofts rexp quad ec t (if Ta ≠ 0 then delayShift t ca Ta else ca)
            Ktrans ve vp 0 m) := by
  have hg := not_degenerate Ktrans ve hK hv
  refine ⟨by simp [length_delayShift, hca], ?_, ?_, ?_⟩
  · intro i hi hle
    have hmap : i < (delayShift t ca Ta).length := by
      simpa [length_delayShift] using hi
    rw [List.getD_eq_getElem _ _ hmap]
    rw [List.getD_eq_getElem _ _ hi] at hle
    simp only [delayShift, List.getElem_map]
    rw [if_neg (not_lt.mpr hle), zero_mul]
  · intro m
    by_cases hTa : Ta = 0
    · subst hTa
      simp
    · simp [tofts, hg, hTa]
  · intro m
    by_cases hTa : Ta = 0
    · subst hTa
      simp
    · simp [extended_tofts, hg, hTa]

/-- C4 witness: concrete instance, sample `t 1 = 10 ≤ Ta = 30` is zeroed. -/
theorem delay_shift_spec_witness :
    (delayShift [(0 : ℚ), 10, 20] [1, 2, 3] 30).getD 1 1 = 0 :=
  (delay_shift_spec rexp1 quad0 ec0 [0, 10, 20] [1, 2, 3] 60 1 (1/2) 30
    (by norm_num) (by norm_num) (by norm_num)).2.1 1 (by norm_num) (by norm_num)

/-- C8: the divisions `kep = Ktrans/ve` and `Tc = ve/Ktrans` sit inside the
branch guarded by `Ktrans > 0` and `ve > 0`; the instrumented variants, which
abort with `none` on a zero divisor at those sites, always return
`some` of the uninstrumented result, for every input. -/
theorem guarded_divisions_never_zero (rexp : ℚ → ℚ)
    (quad : List ℚ → List ℚ → List ℚ → List ℚ) (ec : ℚ → List ℚ → List ℚ → List ℚ)
    (t ca : List ℚ) (Ktrans ve vp Ta : ℚ) (m : String) :
    toftsChecked rexp quad ec t ca Ktrans ve Ta m
      = some (tofts rexp quad ec t ca Ktrans ve Ta m) ∧
    extendedToftsChecked rexp quad ec t ca Ktrans ve vp Ta m
      = some (extended_tofts rexp quad ec t ca Ktrans ve vp Ta m) := by
  by_cases hg : Ktrans ≤ 0 ∨ ve ≤ 0
  · constructor <;>
      simp [tofts, extended_tofts, toftsChecked, extendedToftsChecked, hg]
  · have hK : 0 < Ktrans := lt_of_not_le fun h => hg (Or.inl h)
    have hv : 0 < ve := lt_of_not_le fun h => hg (Or.inr h)
    have h60 : ¬(Ktrans / 60 = 0) := by positivity
    have hv0 : ¬(ve = 0) := ne_of_gt hv
    constructor <;>
      · simp [tofts, extended_tofts, toftsChecked, extendedToftsChecked, hg, h60, hv0]
        split_ifs <;> rfl

/-- C5 (amended): the resampled grid is the inclusive linspace from `t[0]` to
`t[-1]` with count `floor((t[-1]-t[0])/dt_min)`: it is uniform, but its step
is `(t[-1]-t[0])/(count-1)`, not `dt_min`. -/
theorem resampledGrid_is_linspace (t : List ℚ) (hn : 2 ≤ resampleCount t) :
    (resampledGrid t).length = resampleCount t ∧
    (∀ i, i < resampleCount t →
      (resampledGrid t).getD i 0
        = t.headD 0 + (t.getLastD 0 - t.headD 0) * i / ((resampleCount t : ℚ) - 1)) ∧
    (resampledGrid t).getD 0 0 = t.headD 0 ∧
    (resampledGrid t).getD (resampleCount t - 1) 0 = t.getLastD 0 ∧
    (∀ i, i + 1 < resampleCount t →
      (resampledGrid t).getD (i + 1) 0 - (resampledGrid t).getD i 0
        = (t.getLastD 0 - t.headD 0) / ((resampleCount t : ℚ) - 1)) := by
  have hx : ((resampleCount t : ℚ) - 1) ≠ 0 := by
    have h2 : (2 : ℚ) ≤ (resampleCount t : ℚ) := by exact_mod_cast hn
    linarith
  have hpt : ∀ i, i < resampleCount t →
      (resampledGrid t).getD i 0
        = t.headD 0 + (t.getLastD 0 - t.headD 0) * i / ((resampleCount t : ℚ) - 1) := by
    intro i hi
    have hlen : i < (resampledGrid t).length := by
      simpa [resampledGrid, linspace] using hi
    rw [List.getD_eq_getElem _ _ hlen]
    simp [resampledGrid, linspace]
  refine ⟨by simp [resampledGrid, linspace], hpt, ?_, ?_, ?_⟩
  · rw [hpt 0 (by omega)]
    simp
  · rw [hpt (resampleCount t - 1) (by omega)]
    have hc : ((resampleCount t - 1 : ℕ) : ℚ) = (resampleCount t : ℚ) - 1 := by
      have h1 : 1 ≤ resampleCount t := by omega
      push_cast [Nat.cast_sub h1]
      ring
    rw [hc, mul_div_assoc, div_self hx, mul_one]
    ring
  · intro i hi
    rw [hpt (i + 1) hi, hpt i (by omega)]
    push_cast
    field_simp
    ring

/-- C5 amended witness: the grid `t = [0, 1, 3]` has `count = 3` and the
resampled grid starts at `t[0] = 0`. -/
theorem resampledGrid_is_linspace_witness :
    (resampledGrid [(0 : ℚ), 1, 3]).getD 0 0 = List.headD [(0 : ℚ), 1, 3] 0 :=
  (resampledGrid_is_linspace [(0 : ℚ), 1, 3]
    (by
      have hI : Int.toNat 3 = 3 := rfl
      norm_num [resampleCount, npint, mindiff, diff, hI])).2.2.1

/-- C6: for series of matching lengths on a strictly increasing grid of at
least two points, the results of both models have the length of `t`, for
every parameter combination, method and grid, provided the external
interpolation and exponential-convolution primitives preserve the lengths
they contract to preserve. -/
theorem result_length_eq_time_length (rexp : ℚ → ℚ)
    (quad : List ℚ → List ℚ → List ℚ → List ℚ) (ec : ℚ → List ℚ → List ℚ → List ℚ)
    (t ca : List ℚ) (Ktrans ve vp Ta : ℚ) (m : String)
    (ht : 2 ≤ t.length) (hinc : List.Chain' (fun a b => a < b) t)
    (hca : ca.length = t.length)
    (hq : ∀ a b q, (quad a b q).length = q.length)
    (he : ∀ Tc tt cc, (ec Tc tt cc).length = tt.length) :
    (tofts rexp quad ec t ca Ktrans ve Ta m).length = t.length ∧
    (extended_tofts rexp quad ec t ca Ktrans ve vp Ta m).length = t.length :=
  ⟨tofts_length rexp quad ec t ca Ktrans ve Ta m hca hq he,
   extended_tofts_length rexp quad ec t ca Ktrans ve vp Ta m hca hq he⟩

/-- C6 witness: concrete non-uniform instance of length 3. -/
theorem result_length_eq_time_length_witness :
    (tofts rexp1 quad0 ec0 [0, 1, 3] [1, 2, 1] 60 1 5 "conv").length = 3 :=
  (result_length_eq_time_length rexp1 quad0 ec0 [0, 1, 3] [1, 2, 1] 60 1 (1/2) 5 "conv"
    (by norm_num) (by norm_num [List.chain'_cons]) (by norm_num)
    (by intro a b q; simp [quad0]) (by intro Tc tt cc; simp [ec0])).1

/-- C7: with `vp = 0` and non-degenerate parameters, `extended_tofts` agrees
with `tofts` at every sample, for every delay, method and grid, given the
length contracts of the external primitives. -/
theorem extended_vp_zero_eq_tofts (rexp : ℚ → ℚ)
    (quad : List ℚ → List ℚ → List ℚ → List ℚ) (ec : ℚ → List ℚ → List ℚ → List ℚ)
    (t ca : List ℚ) (Ktrans ve Ta : ℚ) (m : String)
    (hca : ca.length = t.length)
    (hq : ∀ a b q, (quad a b q).length = q.length)
    (he : ∀ Tc tt cc, (ec Tc tt cc).length = tt.length)
    (hK : 0 < Ktrans) (hv : 0 < ve) :
    extended_tofts rexp quad ec t ca Ktrans ve 0 Ta m
      = tofts rexp quad ec t ca Ktrans ve Ta m := by
  have hg := not_degenerate Ktrans ve hK hv
  have hshift : (if Ta ≠ 0 then delayShift t ca Ta else ca).length = t.length :=
    length_caShift t ca Ta hca
  simp only [tofts, extended_tofts, if_neg hg]
  by_cases hm : m = "exp"
  · simp only [if_pos hm]
    apply addL_smul_zero_left
    rw [length_smul, he, hshift]
  · simp only [if_neg hm]
    by_cases hgrid : gridUniform t
    · simp only [if_pos hgrid]
      apply addL_smul_zero_right
      rw [length_smul, List.length_take, hshift]
      exact min_le_left _ _
    · simp only [if_neg hgrid]
      congr 2
      apply addL_smul_zero_right
      rw [length_smul, List.length_take, hq]
      exact min_le_left _ _

/-- C7 witness: concrete non-degenerate instance. -/
theorem extended_vp_zero_eq_tofts_witness :
    extended_tofts rexp1 quad0 ec0 [0, 1, 2] [1, 2, 1] 60 1 0 5 "conv"
      = tofts rexp1 quad0 ec0 [0, 1, 2] [1, 2, 1] 60 1 5 "conv" :=
  extended_vp_zero_eq_tofts rexp1 quad0 ec0 [0, 1, 2] [1, 2, 1] 60 1 5 "conv"
    (by norm_num) (by intro a b q; simp [quad0]) (by intro Tc tt cc; simp [ec0])
    (by norm_num) (by norm_num)

/-- C9: a grid failing the tolerance-based uniformity test makes both models
warn and still return a series of the right length — via the resampling path
for the `"conv"` method in the non-degenerate case — while a uniform grid
warns in neither model; no grid shape raises an error. -/
theorem nonuniform_warns_and_resamples (rexp : ℚ → ℚ)
    (quad : List ℚ → List ℚ → List ℚ → List ℚ) (ec : ℚ → List ℚ → List ℚ → List ℚ)
    (t ca : List ℚ) (Ktrans ve vp Ta : ℚ)
    (ht : 2 ≤ t.length) (hca : ca.length = t.length)
    (hq : ∀ a b q, (quad a b q).length = q.length)
    (he : ∀ Tc tt cc, (ec Tc tt cc).length = tt.length) :
    (gridUniform t = false →
      toftsWarns t = true ∧ extendedToftsWarns t = true ∧
      (∀ m, (tofts rexp quad ec t ca Ktrans ve Ta m).length = t.length ∧
        (extended_tofts rexp quad ec t ca Ktrans ve vp Ta m).length = t.length) ∧
      (0 < Ktrans → 0 < ve →
        tofts rexp quad ec t ca Ktrans ve Ta "conv"
          = quad (resampledGrid t)
              (smul ((resampledGrid t).getD 1 0)
                ((convolve
                    (quad t (if Ta ≠ 0 then delayShift t ca Ta else ca) (resampledGrid t))
                    (quad t (impResp rexp (Ktrans / 60) ve t) (resampledGrid t))).take
                  (resampledGrid t).length))
              t)) ∧
    (gridUniform t = true → toftsWarns t = false ∧ extendedToftsWarns t = false) := by
  constructor
  · intro hgrid
    refine ⟨by simp [toftsWarns, hgrid], by simp [extendedToftsWarns, hgrid], ?_, ?_⟩
    · intro m
      exact ⟨tofts_length rexp quad ec t ca Ktrans ve Ta m hca hq he,
        extended_tofts_length rexp quad ec t ca Ktrans ve vp Ta m hca hq he⟩
    · intro hK hv
      have hg := not_degenerate Ktrans ve hK hv
      simp [tofts, hg, hgrid]
  · intro hgrid
    exact ⟨by simp [toftsWarns, hgrid], by simp [extendedToftsWarns, hgrid]⟩

/-- C9 witness: the non-uniform grid `[0, 1, 3]` warns in both models. -/
theorem nonuniform_warns_and_resamples_witness :
    toftsWarns [(0 : ℚ), 1, 3] = true ∧ extendedToftsWarns [(0 : ℚ), 1, 3] = true :=
  have h := (nonuniform_warns_and_resamples rexp1 quad0 ec0 [(0 : ℚ), 1, 3] [1, 2, 1]
    60 1 (1/2) 5 (by norm_num) (by norm_num)
    (by intro a b q; simp [quad0]) (by intro Tc tt cc; simp [ec0])).1
    (by norm_num [gridUniform, allclose, isclose, diff, atol, rtol])
  ⟨h.1, h.2.1⟩

end Osipi
